import Mathlib

/-!
Verification development for the BetterPDF backend: the document engines
(PDF, DOCX and plain-text synthetic pagination) and the OCR annotation
pipeline with its background job orchestrator.

The Python sources are embedded shallowly:
 - numeric code is modelled over `ℚ` (Python floats are idealised as exact
   rationals; every concrete value appearing in a theorem below is exactly
   representable, so no rounding question arises),
 - dict-based caches become association lists with insert-or-replace update,
 - fallible code returns `Except String` or `Option`,
 - the background OCR worker of `DeepReadAPI` becomes a small-step phase
   machine whose micro-steps interleave, under an explicit schedule, with the
   `_cleanup_ocr` event that a new document open triggers.
-/

namespace BetterPDF

set_option maxRecDepth 100000

/-! ## OCR data model (src/backend/ocr/normalize.py, src/backend/api.py) -/

/-- An OCR text line as produced by the recognition engine: text, confidence,
and a bounding polygon given as a list of `(x, y)` vertices. -/
structure OcrLine where
  text : String
  confidence : ℚ
  bbox : List (ℚ × ℚ)
  deriving Repr, DecidableEq

/-- Embeds `Normalize.normalize_to_pdf_coords` (src/backend/ocr/normalize.py,
lines 5-44): `scale_factor = 72 / dpi`; each vertex `(x, y)` of each line's
polygon becomes `(x * scale_factor, page_height - y * scale_factor)`; text and
confidence are carried over unchanged. -/
def normalize_to_pdf_coords (dpi : ℚ) (ocrLines : List OcrLine) (pageHeight : ℚ) :
    List OcrLine :=
  let scaleFactor : ℚ := 72 / dpi
  ocrLines.map fun line =>
    { text := line.text
      confidence := line.confidence
      bbox := line.bbox.map fun v =>
        (v.1 * scaleFactor, pageHeight - v.2 * scaleFactor) }

/-- Embeds the page-height derivation of `OCRPipeline.run`
(src/backend/ocr/pipeline.py, line 38): `page_height = height_px * 72 / self.dpi`,
where `height_px` is the rendered image's own pixel height. -/
def pipelinePageHeight (dpi heightPx : ℚ) : ℚ :=
  heightPx * 72 / dpi

/-- Embeds the normalize step of `OCRPipeline.run` for one page
(src/backend/ocr/pipeline.py, lines 37-40): the page height fed to
`normalize_to_pdf_coords` is derived from the rendered image's pixel height at
the pipeline's DPI. -/
def pipelineNormalizePage (dpi heightPx : ℚ) (pageLines : List OcrLine) :
    List OcrLine :=
  normalize_to_pdf_coords dpi pageLines (pipelinePageHeight dpi heightPx)

/-! ## Search-page dispatch (src/backend/txt_engine.py, src/backend/docx_engine.py) -/

/-- Python truthiness of an `Optional[int]`: `None` and `0` are falsy, every
other integer is truthy. -/
def pyTruthyInt : Option Int → Bool
  | none => false
  | some n => n != 0

/-- Embeds `pages_to_search = [page_num] if page_num else range(1, self.page_count + 1)`,
the page-selection line shared verbatim by `TextEngine.search_text`
(src/backend/txt_engine.py, line 269) and `DocxEngine.search_text`
(src/backend/docx_engine.py, line 377). -/
def pagesToSearch (pageNum : Option Int) (pageCount : Nat) : List Int :=
  if pyTruthyInt pageNum then [pageNum.getD 0]
  else (List.range pageCount).map fun i => (i : Int) + 1

/-- Embeds the outer loop `for pn in pages_to_search: ...` of
`TextEngine.search_text` / `DocxEngine.search_text`: results are accumulated
over the selected pages in order.  The per-page match scan (identical in the
single-page and all-pages branches of the source) is the parameter `perPage`. -/
def search_text {α : Type} (perPage : Int → List α) (pageCount : Nat)
    (pageNum : Option Int) : List α :=
  (pagesToSearch pageNum pageCount).flatMap perPage

/-! ## Dict-backed caches -/

/-- Lookup in an association list, first match wins (Python `dict` read). -/
def cacheGet {κ ν : Type} [DecidableEq κ] (c : List (κ × ν)) (k : κ) : Option ν :=
  (c.find? fun e => e.1 = k).map fun e => e.2

/-- Python `dict` write `c[k] = v`: replace the existing binding in place,
otherwise append the new binding at the end (Python dicts preserve insertion
order). -/
def cacheSet {κ ν : Type} [DecidableEq κ] : List (κ × ν) → κ → ν → List (κ × ν)
  | [], k, v => [(k, v)]
  | e :: tl, k, v => if e.1 = k then (k, v) :: tl else e :: cacheSet tl k v

/-! ## Render cache (src/backend/pdf_engine.py, txt_engine.py, docx_engine.py) -/

/-- The render-cache state shared by all three document engines: a fixed page
count and a render cache keyed by `(page_num, round(zoom, 2))`. -/
structure CachedEngine where
  pageCount : Nat
  cache : List ((Int × ℚ) × String)

/-- Python `round(zoom, 2)` idealised over `ℚ` (nearest hundredth; Python's
round-half-even tie rule on floats differs only at exact half-hundredths,
which none of the theorems below depend on). -/
def round2 (z : ℚ) : ℚ := (round (z * 100) : ℤ) / 100

/-- Embeds the shared shape of `PDFEngine.render_page`
(src/backend/pdf_engine.py, lines 47-86), `TextEngine.render_page`
(src/backend/txt_engine.py, lines 166-223) and `DocxEngine.render_page`
(src/backend/docx_engine.py, lines 291-329): look up the cache at
`(page_num, round(zoom, 2))` first; on a miss, raise `ValueError` when
`page_num < 1 or page_num > page_count`; otherwise rasterize (the
engine-specific drawing is the parameter `raw`) and store the result under the
cache key. -/
def render_page (raw : Int → ℚ → String) (e : CachedEngine) (pageNum : Int)
    (zoom : ℚ) : Except String String × CachedEngine :=
  match cacheGet e.cache (pageNum, round2 zoom) with
  | some img => (.ok img, e)
  | none =>
    if pageNum < 1 ∨ pageNum > (e.pageCount : Int) then
      (.error "Invalid page number", e)
    else
      (.ok (raw pageNum zoom),
        { e with cache := cacheSet e.cache (pageNum, round2 zoom) (raw pageNum zoom) })

/-- Engine states reachable from construction (empty render cache) by any
sequence of `render_page` calls. -/
inductive EngineReach (raw : Int → ℚ → String) : CachedEngine → Prop
  | init (n : Nat) : EngineReach raw { pageCount := n, cache := [] }
  | step (e : CachedEngine) (p : Int) (z : ℚ) :
      EngineReach raw e → EngineReach raw (render_page raw e p z).2

/-! ## DOCX synthetic pagination (src/backend/docx_engine.py) -/

/-- Embeds `_RenderedLine` (src/backend/docx_engine.py, lines 34-39). -/
structure RenderedLine where
  text : String
  yOffset : ℚ
  fontSize : Nat
  bold : Bool
  deriving Repr, DecidableEq

/-- Embeds `_PageRecord` (src/backend/docx_engine.py, lines 42-46):
`para_start` inclusive, `para_end` exclusive into the paragraph list. -/
structure PageRecord where
  lines : List RenderedLine := []
  paraStart : Nat := 0
  paraEnd : Nat := 0
  deriving Repr, DecidableEq

/-- Embeds `_ParagraphInfo` (src/backend/docx_engine.py, lines 49-54). -/
structure ParagraphInfo where
  text : String
  fontSize : Nat
  bold : Bool
  spaceAfter : Nat
  deriving Repr, DecidableEq

/-- The usable width `PAGE_WIDTH - MARGIN_LEFT - MARGIN_RIGHT = 612 - 50 - 50`
(src/backend/docx_engine.py, lines 25-29, 228). -/
def usableWidthDocx : ℚ := 612 - 50 - 50

/-- The usable height `PAGE_HEIGHT - MARGIN_TOP - MARGIN_BOTTOM = 792 - 55 - 55`
(src/backend/docx_engine.py, lines 26-30, 229). -/
def usableHeightDocx : ℚ := 792 - 55 - 55

/-- One step of the character loop of `DocxEngine._wrap_text`
(src/backend/docx_engine.py, lines 210-219).  The accumulator is
`(lines, current_line, current_width)`. -/
def wrapStep (cw : Char → ℚ) (maxWidth : ℚ) (acc : List String × String × ℚ)
    (c : Char) : List String × String × ℚ :=
  if acc.2.2 + cw c ≤ maxWidth then (acc.1, acc.2.1.push c, acc.2.2 + cw c)
  else ((if acc.2.1 = "" then acc.1 else acc.1 ++ [acc.2.1]),
    String.singleton c, cw c)

/-- Embeds `DocxEngine._wrap_text` (src/backend/docx_engine.py, lines 201-224):
greedy character-accumulation wrapping; empty text wraps to `[""]`; the
character-width measure `cw` stands for `_measure_char_width` with the
paragraph's font. -/
def wrap_text (cw : Char → ℚ) (text : String) (maxWidth : ℚ) : List String :=
  if text = "" then [""]
  else
    let r := text.toList.foldl (wrapStep cw maxWidth) ([], "", 0)
    let lines := if r.2.1 = "" then r.1 else r.1 ++ [r.2.1]
    if lines.isEmpty then [""] else lines

/-- The mutable loop state of `DocxEngine._paginate`
(src/backend/docx_engine.py, lines 231-232): finished page records, the page
being filled, and the vertical cursor. -/
structure PagState where
  records : List PageRecord := []
  cur : PageRecord := {}
  curY : ℚ := 0

/-- Embeds the inner per-line body of `DocxEngine._paginate`
(src/backend/docx_engine.py, lines 240-255): when the next line would exceed
the usable height AND the current page already has lines, close the current
page (recording `para_end = para_idx`) and start a new one at that paragraph;
then append the line at the cursor and advance the cursor by `line_height`. -/
def addLine (lineH : ℚ) (paraIdx fontSize : Nat) (bold : Bool) (st : PagState)
    (lineText : String) : PagState :=
  if st.curY + lineH > usableHeightDocx ∧ st.cur.lines ≠ [] then
    { records := st.records ++ [{ st.cur with paraEnd := paraIdx }]
      cur := { lines := [{ text := lineText, yOffset := 0
                           fontSize := fontSize, bold := bold }]
               paraStart := paraIdx, paraEnd := 0 }
      curY := lineH }
  else
    { records := st.records
      cur := { st.cur with
                lines := st.cur.lines
                  ++ [{ text := lineText, yOffset := st.curY
                        fontSize := fontSize, bold := bold }] }
      curY := st.curY + lineH }

/-- Embeds the per-paragraph body of `DocxEngine._paginate`
(src/backend/docx_engine.py, lines 234-258): `line_height = font_size * 1.4`,
wrap the paragraph text to the usable width, lay out the wrapped lines, then
advance the cursor by the paragraph's `space_after`.  `fw` stands for
`_get_font` composed with `_measure_char_width`. -/
def addPara (fw : Nat → Bool → Char → ℚ) (st : PagState)
    (ip : Nat × ParagraphInfo) : PagState :=
  let lineH : ℚ := (ip.2.fontSize : ℚ) * (7 / 5)
  let wrapped := wrap_text (fw ip.2.fontSize ip.2.bold) ip.2.text usableWidthDocx
  let st' := wrapped.foldl (addLine lineH ip.1 ip.2.fontSize ip.2.bold) st
  { st' with curY := st'.curY + (ip.2.spaceAfter : ℚ) }

/-- Embeds `DocxEngine._paginate` (src/backend/docx_engine.py, lines 226-266):
fold the per-paragraph body over the enumerated paragraphs, then finalize the
last page with `para_end = len(paragraphs)`; the trailing "ensure at least one
page" branch of the source is kept although the appended final page already
makes the record list non-empty. -/
def docxPaginate (fw : Nat → Bool → Char → ℚ) (paras : List ParagraphInfo) :
    List PageRecord :=
  let fin := paras.enum.foldl (addPara fw) {}
  let recs := fin.records ++ [{ fin.cur with paraEnd := paras.length }]
  if recs.isEmpty then [{ paraEnd := paras.length }] else recs

/-- Embeds the tail of `DocxEngine._load_paragraphs`
(src/backend/docx_engine.py, lines 130-134): if the document produced no
paragraphs, append one empty default-styled paragraph so that there is always
at least one page. -/
def docxEnsureParagraphs (paras : List ParagraphInfo) : List ParagraphInfo :=
  if paras.isEmpty then
    [{ text := "", fontSize := 12, bold := false, spaceAfter := 8 }]
  else paras

/-- The page records a constructed `DocxEngine` holds for a document whose
parsed paragraphs are `paras`: `_load_paragraphs`'s non-emptiness guarantee
followed by `_paginate`. -/
def docxPages (fw : Nat → Bool → Char → ℚ) (paras : List ParagraphInfo) :
    List PageRecord :=
  docxPaginate fw (docxEnsureParagraphs paras)

/-- Python list slice `l[s:e]` for `0 ≤ s ≤ e` (clamped at the end). -/
def pySlice {α : Type} (l : List α) (s e : Nat) : List α :=
  (l.drop s).take (e - s)

/-- Embeds `DocxEngine.extract_text` (src/backend/docx_engine.py, lines
355-362): validate the page number, then join with newlines the text of the
original paragraphs in the page's recorded `[para_start, para_end)` range. -/
def docxExtractText (paras : List ParagraphInfo) (recs : List PageRecord)
    (pageNum : Int) : Except String String :=
  if pageNum < 1 ∨ pageNum > (recs.length : Int) then
    .error "Invalid page number"
  else match recs.get? (pageNum - 1).toNat with
    | some pg =>
      .ok (String.intercalate "\n"
        ((pySlice paras pg.paraStart pg.paraEnd).map fun p => p.text))
    | none => .error "Invalid page number"

/-! ## Plain-text synthetic pagination (src/backend/txt_engine.py) -/

/-- ASCII whitespace as recognised by Python's `str.strip` and the regex `\s`
(the development's inputs contain no non-ASCII whitespace). -/
def isPySpace (c : Char) : Bool :=
  c = ' ' ∨ c = '\t' ∨ c = '\n' ∨ c = '\x0B' ∨ c = '\x0C' ∨ c = '\r'

/-- Python `str.expandtabs()` with the default tab size 8: each tab advances
to the next multiple of 8; newline and carriage return reset the column. -/
def expandTabs (s : String) : String :=
  (s.toList.foldl (fun (acc : String × Nat) c =>
    if c = '\t' then
      (acc.1 ++ String.mk (List.replicate (8 - acc.2 % 8) ' '), acc.2 + (8 - acc.2 % 8))
    else if c = '\n' ∨ c = '\r' then (acc.1.push c, 0)
    else (acc.1.push c, acc.2 + 1)) ("", 0)).1

/-- Splitting on the regex `(\s+)` keeping the separators: the maximal runs of
whitespace / non-whitespace characters, in order.  This is CPython
`textwrap`'s `wordsep_simple_re` chunking, used because the source passes
`break_on_hyphens=False`. -/
def splitRuns (s : List Char) : List String :=
  let r := s.foldl (fun (acc : List String × List Char) c =>
    match acc.2 with
    | [] => (acc.1, [c])
    | d :: _ =>
      if isPySpace c = isPySpace d then (acc.1, acc.2 ++ [c])
      else (acc.1 ++ [String.mk acc.2], [c])) ([], [])
  if r.2.isEmpty then r.1 else r.1 ++ [String.mk r.2]

/-- CPython `textwrap.TextWrapper._handle_long_word` with
`break_long_words=True, break_on_hyphens=False`: split the overlong chunk at
`space_left = width - cur_len` (at least 1 when `width < 1`), returning the
piece for the current line and the remainder. -/
def handleLongWord (chunk : String) (curLen width : Nat) : String × String :=
  let spaceLeft := if width < 1 then 1 else width - curLen
  (String.mk (chunk.toList.take spaceLeft), String.mk (chunk.toList.drop spaceLeft))

/-- The inner greedy loop of CPython `textwrap.TextWrapper._wrap_chunks`:
pop chunks onto the current line while the accumulated length stays within
`width`.  Returns (chunks taken, chunks remaining, new cumulative length). -/
def greedyTake (width : Nat) : List String → Nat → List String × List String × Nat
  | [], curLen => ([], [], curLen)
  | ch :: rest, curLen =>
    if curLen + ch.length ≤ width then
      match greedyTake width rest (curLen + ch.length) with
      | (cl, rem, l) => (ch :: cl, rem, l)
    else ([], ch :: rest, curLen)

/-- One outer iteration plus recursion (on explicit fuel) of CPython
`textwrap.TextWrapper._wrap_chunks` for the option set fixed by
`TextEngine._paginate_text` (src/backend/txt_engine.py, lines 132-138):
`break_long_words=True, break_on_hyphens=False, replace_whitespace=False`,
defaults `drop_whitespace=True`, no indents, no `max_lines`. -/
def wrapChunksLoop (width : Nat) : Nat → List String → List String → List String
  | 0, _, lines => lines
  | _ + 1, [], lines => lines
  | fuel + 1, c :: rest, lines =>
    let chunks1 := if c.toList.all isPySpace ∧ lines ≠ [] then rest else c :: rest
    match greedyTake width chunks1 0 with
    | (curLine, chunks2, curLen) =>
      let split := match chunks2 with
        | c2 :: rest2 =>
          if c2.length > width then
            match handleLongWord c2 curLen width with
            | (headPart, tailPart) => (curLine ++ [headPart], tailPart :: rest2)
          else (curLine, chunks2)
        | [] => (curLine, chunks2)
      let curLine3 := match split.1.getLast? with
        | some lastChunk =>
          if lastChunk.toList.all isPySpace then split.1.dropLast else split.1
        | none => split.1
      let lines2 := if curLine3.isEmpty then lines else lines ++ [String.join curLine3]
      wrapChunksLoop width fuel split.2 lines2

/-- CPython `textwrap.wrap(line, width, break_long_words=True,
break_on_hyphens=False, replace_whitespace=False)` as called by
`TextEngine._paginate_text` (src/backend/txt_engine.py, lines 132-138):
expand tabs, chunk on whitespace runs dropping empty chunks, and run the
greedy line filler.  The fuel bound exceeds the number of outer iterations,
each of which consumes at least one character or chunk. -/
def textwrapWrap (width : Nat) (text : String) : List String :=
  let t := expandTabs text
  let chunks := splitRuns t.toList
  wrapChunksLoop width (t.length + chunks.length + 1) chunks []

/-- Python `content.split('\n')`: split at every newline, keeping empty
parts, with one more part than there are newlines (the empty string yields
`[""]`). -/
def splitNl (s : List Char) : List String :=
  let r := s.foldl (fun (acc : List String × List Char) c =>
    if c = '\n' then (acc.1 ++ [String.mk acc.2], [])
    else (acc.1, acc.2 ++ [c])) ([], [])
  r.1 ++ [String.mk r.2]

/-- The constant `lines_per_page = int((792 - 40 - 40) / 18)`
= `int((792 - 40 - 40) / 18)` (src/backend/txt_engine.py, lines 122-123). -/
def txtLinesPerPage : Nat := (792 - 40 - 40) / 18

/-- The page-chunking loop `for i in range(0, len(wrapped_lines), lines_per_page)`
(src/backend/txt_engine.py, lines 145-148), recursing on fuel so that the
definition reduces definitionally; the fuel passed by `chunkList` dominates
the number of iterations for any positive page size. -/
def chunkListFuel {α : Type} : Nat → Nat → List α → List (List α)
  | 0, _, _ => []
  | _ + 1, _, [] => []
  | fuel + 1, n, x :: xs => (x :: xs).take n :: chunkListFuel fuel n ((x :: xs).drop n)

/-- Chunk a list into consecutive pieces of size `n` (Python
`[l[i:i+n] for i in range(0, len(l), n)]`). -/
def chunkList {α : Type} (n : Nat) (l : List α) : List (List α) :=
  chunkListFuel (l.length + 1) n l

/-- Embeds `TextEngine._paginate_text` (src/backend/txt_engine.py, lines
114-154): split the content on newlines; an empty line stays one empty wrapped
line, a non-empty line is wrapped with `textwrap.wrap` (an empty wrap result
also yields one empty line); then chunk the wrapped lines into pages of
`lines_per_page`; finally ensure at least one page. -/
def txtPaginateText (content : String) : List (List String) :=
  let wrappedLines := (splitNl content.toList).foldl (fun acc line =>
    if line = "" then acc ++ [""]
    else
      let wrapped := textwrapWrap 80 line
      if wrapped.isEmpty then acc ++ [""] else acc ++ wrapped) []
  let pages := chunkList txtLinesPerPage wrappedLines
  if pages.isEmpty then [[]] else pages

/-- Embeds `TextEngine.extract_text` (src/backend/txt_engine.py, lines
225-240): validate the page number, then join the page's wrapped lines with
newlines. -/
def txtExtractText (pages : List (List String)) (pageNum : Int) :
    Except String String :=
  if pageNum < 1 ∨ pageNum > (pages.length : Int) then
    .error "Invalid page number"
  else match pages.get? (pageNum - 1).toNat with
    | some pl => .ok (String.intercalate "\n" pl)
    | none => .error "Invalid page number"

/-! ## Claim C3 -/

/-- A string of `n` repetitions of the letter a. -/
def aStr (n : Nat) : String := String.mk (List.replicate n 'a')

/-! ## Claim C3 (amended): page ranges tile the paragraph list -/

/-- The predicate `Chained a rs b`: the `[para_start, para_end)` ranges of the page records
`rs` are consecutive, starting at `a` and ending at `b`. -/
inductive Chained : Nat → List PageRecord → Nat → Prop
  | nil (a : Nat) : Chained a [] a
  | cons {a b : Nat} (r : PageRecord) (rs : List PageRecord)
      (hs : r.paraStart = a) (hle : a ≤ r.paraEnd)
      (htail : Chained r.paraEnd rs b) : Chained a (r :: rs) b

/-- The pagination loop invariant: the finished records' ranges chain from 0
to the current page's `para_start`, which never exceeds the index of the
paragraph being processed. -/
def PagInv (i : Nat) (st : PagState) : Prop :=
  Chained 0 st.records st.cur.paraStart ∧ st.cur.paraStart ≤ i

/-! ## OCR job orchestrator (src/backend/api.py) -/

/-- A simplified OCR line as cached by `DeepReadAPI`: the polygon collapsed to
an axis-aligned rectangle (src/backend/api.py, lines 322-341). -/
structure SimpleLine where
  text : String
  confidence : ℚ
  x : ℚ
  y : ℚ
  width : ℚ
  height : ℚ
  deriving Repr, DecidableEq

/-- Python `min` over a list, `none` for the `ValueError` on an empty list. -/
def pyMin : List ℚ → Option ℚ
  | [] => none
  | x :: xs => some (xs.foldl min x)

/-- Python `max` over a list, `none` for the `ValueError` on an empty list. -/
def pyMax : List ℚ → Option ℚ
  | [] => none
  | x :: xs => some (xs.foldl max x)

/-- The per-line body of `DeepReadAPI._simplify_ocr_lines`
(src/backend/api.py, lines 325-340): the rectangle given by min/max over the
polygon's vertices; `none` models the `ValueError` Python's `min`/`max` raise
on an empty polygon. -/
def simplifyLine (line : OcrLine) : Option SimpleLine :=
  match pyMin (line.bbox.map fun v => v.1), pyMin (line.bbox.map fun v => v.2),
      pyMax (line.bbox.map fun v => v.1), pyMax (line.bbox.map fun v => v.2) with
  | some xMin, some yMin, some xMax, some yMax =>
    some { text := line.text, confidence := line.confidence,
           x := xMin, y := yMin, width := xMax - xMin, height := yMax - yMin }
  | _, _, _, _ => none

/-- Embeds `DeepReadAPI._simplify_ocr_lines` (src/backend/api.py, lines
322-341) over a page's line list, propagating the empty-polygon error. -/
def simplifyOcrLines : List OcrLine → Option (List SimpleLine)
  | [] => some []
  | l :: ls =>
    match simplifyLine l, simplifyOcrLines ls with
    | some s, some ss => some (s :: ss)
    | _, _ => none

/-- The job status strings of `DeepReadAPI._ocr_progress["status"]`. -/
inductive OcrStatus where
  | idle
  | running
  | completed
  | error
  deriving Repr, DecidableEq

/-- The job stage strings of `DeepReadAPI._ocr_progress["stage"]`. -/
inductive OcrStage where
  | idle
  | loadingModel
  | ocrPages
  | completed
  | error
  deriving Repr, DecidableEq

/-- Embeds the `DeepReadAPI._ocr_progress` dict (src/backend/api.py, lines
40-48). -/
structure OcrProgress where
  status : OcrStatus
  stage : OcrStage
  jobId : Nat
  processedPages : Nat
  totalPages : Nat
  totalLines : Nat
  error : String
  deriving Repr, DecidableEq

/-- The reset progress written at construction and by `_cleanup_ocr`
(src/backend/api.py, lines 302-311). -/
def idleProgress (jobId : Nat) : OcrProgress :=
  { status := .idle, stage := .idle, jobId := jobId, processedPages := 0,
    totalPages := 0, totalLines := 0, error := "" }

/-- The OCR-related shared state of a `DeepReadAPI` instance: the live
generation id `_ocr_job_id`, whether `_ocr_pipeline` is constructed, the page
cache `_ocr_cache`, the progress dict, and the open document's page count. -/
structure OrchState where
  jobId : Nat
  pipelineInited : Bool
  cache : List (Nat × List SimpleLine)
  progress : OcrProgress
  pdfOpen : Bool
  pdfPageCount : Nat
  deriving Repr, DecidableEq

/-- The deterministic environment of one document session: what
`OCRPipeline.run(first_page=p, last_page=p)` returns for each page (a list of
per-page line lists, or the exception it raises), and the exception
`_ensure_ocr_pipeline` raises at pipeline construction, if any. -/
structure OcrWorld where
  backend : Nat → Except String (List (List OcrLine))
  initErr : Option String

/-- The derived percent of `_get_ocr_progress_snapshot`
(src/backend/api.py, lines 347-355): `100 * processed / total`, `0` when
`total` is `0`. -/
def snapshotPercent (p : OcrProgress) : ℚ :=
  if 0 < p.totalPages then 100 * (p.processedPages : ℚ) / (p.totalPages : ℚ)
  else 0

/-- A progress snapshot as returned to callers. -/
structure ProgressSnapshot where
  progress : OcrProgress
  percent : ℚ
  deriving Repr, DecidableEq

/-- Embeds `DeepReadAPI.get_ocr_progress` / `_get_ocr_progress_snapshot`
(src/backend/api.py, lines 347-355, 573-579): a copy of the guarded progress
plus the derived percent. -/
def get_ocr_progress (s : OrchState) : ProgressSnapshot :=
  { progress := s.progress, percent := snapshotPercent s.progress }

/-- Embeds `DeepReadAPI.ocr_page` (src/backend/api.py, lines 428-465).
Returns the result, the successor state, and whether the recognition backend
(`self._ocr_pipeline.run`) was invoked. -/
def ocr_page (w : OcrWorld) (s : OrchState) (pageNum : Nat) :
    Except String (List SimpleLine) × OrchState × Bool :=
  if s.pdfOpen = false then (.error "No PDF open", s, false)
  else match cacheGet s.cache pageNum with
  | some lines => (.ok lines, s, false)
  | none =>
    match s.pipelineInited, w.initErr with
    | false, some e => (.error e, s, false)
    | _, _ =>
      match w.backend pageNum with
      | .error e => (.error e, { s with pipelineInited := true }, true)
      | .ok results =>
        match simplifyOcrLines (results.headD []) with
        | none => (.error "min() arg is an empty sequence",
            { s with pipelineInited := true }, true)
        | some simplified =>
          (.ok simplified,
            { s with pipelineInited := true,
                     cache := cacheSet s.cache pageNum simplified }, true)

/-- The result dict of `DeepReadAPI.start_ocr_document`
(src/backend/api.py, lines 501-571), one constructor per return site. -/
inductive StartResult where
  | err (msg : String)
  | emptyDoc
  | alreadyRunning (totalPages : Nat)
  | cached (totalPages totalLines : Nat)
  | started (totalPages : Nat)
  deriving Repr, DecidableEq

/-- Embeds `DeepReadAPI.start_ocr_document` (src/backend/api.py, lines
501-571).  Returns the result, the successor state, and the `(job_id,
total_pages)` arguments of the background worker thread it spawns, if any. -/
def start_ocr_document (s : OrchState) :
    StartResult × OrchState × Option (Nat × Nat) :=
  if s.pdfOpen = false then (.err "No PDF open", s, none)
  else if s.pdfPageCount ≤ 0 then
    (.emptyDoc,
      { s with progress := { s.progress with
          status := .completed, stage := .completed, processedPages := 0,
          totalPages := 0, totalLines := 0, error := "" } }, none)
  else if (get_ocr_progress s).progress.status = .running then
    (.alreadyRunning s.progress.totalPages, s, none)
  else if s.pdfPageCount ≤ s.cache.length then
    (.cached s.pdfPageCount ((s.cache.map fun e => e.2.length).sum),
      { s with progress := { s.progress with
          status := .completed, stage := .completed,
          processedPages := s.pdfPageCount, totalPages := s.pdfPageCount,
          totalLines := (s.cache.map fun e => e.2.length).sum, error := "" } },
      none)
  else
    (.started s.pdfPageCount,
      { s with progress := {
          status := .running, stage := .loadingModel, jobId := s.jobId,
          processedPages := 0, totalPages := s.pdfPageCount,
          totalLines := 0, error := "" } },
      some (s.jobId, s.pdfPageCount))

/-! ### The background worker as a small-step system

`DeepReadAPI._run_ocr_document_job` (src/backend/api.py, lines 357-426) runs
on a daemon thread; `_cleanup_ocr` (lines 294-311) can fire between any two of
its statements when a new document is opened.  The worker is therefore modelled
as a phase machine whose micro-steps interleave with cleanup events under an
explicit schedule. -/

/-- Worker control phases: `baseline` is the cached-page count, initial
progress write and pipeline construction (lines 362-383); `check p` is the
top-of-loop generation test for page `p` (lines 385-391); `work p` is the
pipeline run, cache write and progress write for an uncached page (lines
393-407); `finish` is the post-loop generation comparison (line 409) and
`finishWrite` its completion write (lines 410-418); `exc e` is the `except`
handler's generation comparison (line 420) and `excWrite e` its error write
(lines 421-426).  The generation comparisons and the writes they guard are
separate statements in the source with no lock spanning them, so they are
separate micro-steps here: a cleanup event can fire in between. -/
inductive WPhase where
  | baseline
  | check (p processed tl : Nat)
  | work (p processed tl : Nat)
  | finish (tl : Nat)
  | finishWrite (tl : Nat)
  | exc (e : String)
  | excWrite (e : String)
  | halted
  deriving Repr, DecidableEq

/-- A worker configuration: the worker's captured `job_id` and `total_pages`
arguments, its control phase, and the shared orchestrator state. -/
structure WConfig where
  jobId : Nat
  total : Nat
  ph : WPhase
  st : OrchState
  deriving Repr, DecidableEq

/-- The baseline pass of `_run_ocr_document_job` (src/backend/api.py, lines
364-369): count already-cached pages among `1..total` and their lines. -/
def cachedBaseline (cache : List (Nat × List SimpleLine)) (total : Nat) :
    Nat × Nat :=
  (List.range total).foldl (fun acc i =>
    match cacheGet cache (i + 1) with
    | some lines => (acc.1 + 1, acc.2 + lines.length)
    | none => acc) (0, 0)

/-- The per-page progress write of the worker loop (src/backend/api.py, lines
400-407): `_update_ocr_progress` with status/job/counters/error but no stage. -/
def runningProgress (old : OcrProgress) (jobId processed total tl : Nat) :
    OcrProgress :=
  { old with
    status := .running, jobId := jobId, processedPages := processed,
    totalPages := total, totalLines := tl, error := "" }

/-- One micro-step of the background worker
(`DeepReadAPI._run_ocr_document_job`, src/backend/api.py, lines 357-426). -/
def wstep (w : OcrWorld) (c : WConfig) : WConfig :=
  match c.ph with
  | .baseline =>
    match cachedBaseline c.st.cache c.total with
    | (pr0, tl0) =>
      let prog1 : OcrProgress :=
        { status := .running, stage := .loadingModel, jobId := c.jobId,
          processedPages := pr0, totalPages := c.total, totalLines := tl0,
          error := "" }
      if c.st.pipelineInited then
        { c with
          st := { c.st with progress := { prog1 with stage := .ocrPages } }
          ph := .check 1 pr0 tl0 }
      else match w.initErr with
        | some e =>
          { c with st := { c.st with progress := prog1 }, ph := .exc e }
        | none =>
          { c with
            st := { c.st with
              pipelineInited := true
              progress := { prog1 with stage := .ocrPages } }
            ph := .check 1 pr0 tl0 }
  | .check p processed tl =>
    if c.total < p then { c with ph := .finish tl }
    else if c.jobId ≠ c.st.jobId then { c with ph := .halted }
    else match cacheGet c.st.cache p with
      | some _ => { c with ph := .check (p + 1) processed tl }
      | none => { c with ph := .work p processed tl }
  | .work p processed tl =>
    match w.backend p with
    | .error e => { c with ph := .exc e }
    | .ok results =>
      match simplifyOcrLines (results.headD []) with
      | none => { c with ph := .exc "min() arg is an empty sequence" }
      | some simplified =>
        { c with
          st := { c.st with
            cache := cacheSet c.st.cache p simplified
            progress := runningProgress c.st.progress c.jobId (processed + 1)
              c.total (tl + simplified.length) }
          ph := .check (p + 1) (processed + 1) (tl + simplified.length) }
  | .finish tl =>
    if c.jobId = c.st.jobId then { c with ph := .finishWrite tl }
    else { c with ph := .halted }
  | .finishWrite tl =>
    { c with
      st := { c.st with progress := {
        status := .completed, stage := .completed, jobId := c.jobId,
        processedPages := c.total, totalPages := c.total, totalLines := tl,
        error := "" } }
      ph := .halted }
  | .exc e =>
    if c.jobId = c.st.jobId then { c with ph := .excWrite e }
    else { c with ph := .halted }
  | .excWrite e =>
    { c with
      st := { c.st with progress := { c.st.progress with
        status := .error, stage := .error, jobId := c.jobId, error := e } }
      ph := .halted }
  | .halted => c

/-- The `_cleanup_ocr` event (src/backend/api.py, lines 294-311) fired by a
new document open: increment the generation id, drop the pipeline, clear the
cache, reset progress to idle under the new generation. -/
def cleanupStep (c : WConfig) : WConfig :=
  { c with
    st := { c.st with
      jobId := c.st.jobId + 1, pipelineInited := false, cache := []
      progress := idleProgress (c.st.jobId + 1) } }

/-- Run a schedule of interleaved steps: `true` is one worker micro-step,
`false` is a cleanup event (a new document being opened). -/
def runSched (w : OcrWorld) : List Bool → WConfig → WConfig
  | [], c => c
  | b :: rest, c => runSched w rest (if b then wstep w c else cleanupStep c)

/-! ## Claim C5 -/

/-- The concrete running orchestrator state used by the C5 witness. -/
def runningState3 : OrchState where
  jobId := 0
  pipelineInited := true
  cache := []
  progress := { status := .running, stage := .ocrPages, jobId := 0,
                processedPages := 1, totalPages := 3, totalLines := 4,
                error := "" }
  pdfOpen := true
  pdfPageCount := 3

/-- The world of the C6 witness: a backend that finds no text on any page. -/
def emptyPageWorld : OcrWorld where
  backend := fun _ => .ok [[]]
  initErr := none

/-- The pre-state of the C6 witness: one-page document, cold cache. -/
def coldState1 : OrchState where
  jobId := 0
  pipelineInited := false
  cache := []
  progress := idleProgress 0
  pdfOpen := true
  pdfPageCount := 1

/-- The world of the C8 witness: the pipeline raises on every page. -/
def boomWorld : OcrWorld where
  backend := fun _ => .error "boom"
  initErr := none

/-- The shared state of the C8 witness (generation 0 current). -/
def workerSt0 : OrchState where
  jobId := 0
  pipelineInited := true
  cache := []
  progress := { status := .running, stage := .ocrPages, jobId := 0,
                processedPages := 0, totalPages := 2, totalLines := 0,
                error := "" }
  pdfOpen := true
  pdfPageCount := 2

/-- The worker configuration of the C8 witness, about to OCR page 1. -/
def workCfg : WConfig where
  jobId := 0
  total := 2
  ph := .work 1 0 0
  st := workerSt0

/-- The world of the C1 witness and counterexample: the pipeline finds one
line on every page. -/
def oneLineWorld : OcrWorld where
  backend := fun _ => .ok [[{ text := "hello", confidence := 1, bbox := [(2, 3)] }]]
  initErr := none

/-- A worker configuration of generation 0 at the page-1 check while the live
generation is already 1, with one page cached under the new generation. -/
def staleCheckCfg : WConfig where
  jobId := 0
  total := 1
  ph := .check 1 0 0
  st := { jobId := 1, pipelineInited := true, cache := [(5, [])],
          progress := idleProgress 1, pdfOpen := true, pdfPageCount := 1 }

/-- The starting configuration of the C1 counterexample: a generation-0
worker over a 1-page document, cold cache, generation 0 live. -/
def staleJobCfg : WConfig where
  jobId := 0
  total := 1
  ph := .baseline
  st := { jobId := 0, pipelineInited := true, cache := [],
          progress := { status := .running, stage := .loadingModel, jobId := 0,
                        processedPages := 0, totalPages := 1, totalLines := 0,
                        error := "" },
          pdfOpen := true, pdfPageCount := 1 }

theorem cacheGet_cons_ne {κ ν : Type} [DecidableEq κ]
    (e : κ × ν) (tl : List (κ × ν)) (k : κ) (h : e.1 ≠ k) :
    cacheGet (e :: tl) k = cacheGet tl k := by
  unfold cacheGet
  rw [List.find?_cons_of_neg]
  simpa using h

theorem cacheGet_cacheSet_self {κ ν : Type} [DecidableEq κ]
    (c : List (κ × ν)) (k : κ) (v : ν) : cacheGet (cacheSet c k v) k = some v := by
  induction c with
  | nil =>
    unfold cacheSet cacheGet
    simp
  | cons hd tl ih =>
    unfold cacheSet
    by_cases hk : hd.1 = k
    · rw [if_pos hk]
      unfold cacheGet
      simp
    · rw [if_neg hk, cacheGet_cons_ne hd _ k hk]
      exact ih

theorem cacheGet_cacheSet_ne {κ ν : Type} [DecidableEq κ]
    (c : List (κ × ν)) (k k' : κ) (v : ν) (h : k' ≠ k) :
    cacheGet (cacheSet c k v) k' = cacheGet c k' := by
  induction c with
  | nil =>
    unfold cacheSet
    rw [cacheGet_cons_ne (k, v) [] k' (fun hh => h hh.symm)]
  | cons hd tl ih =>
    unfold cacheSet
    by_cases hk : hd.1 = k
    · rw [if_pos hk, cacheGet_cons_ne (k, v) tl k' (fun hh => h hh.symm)]
      rw [cacheGet_cons_ne hd tl k' (by rw [hk]; exact fun hh => h hh.symm)]
    · rw [if_neg hk]
      by_cases hk' : hd.1 = k'
      · unfold cacheGet
        rw [List.find?_cons_of_pos, List.find?_cons_of_pos] <;> simpa using hk'
      · rw [cacheGet_cons_ne hd _ k' hk', cacheGet_cons_ne hd tl k' hk']
        exact ih

theorem mem_cacheSet {κ ν : Type} [DecidableEq κ]
    (c : List (κ × ν)) (k : κ) (v : ν) (x : κ × ν) (hx : x ∈ cacheSet c k v) :
    x.1 = k ∨ x ∈ c := by
  induction c with
  | nil =>
    unfold cacheSet at hx
    exact Or.inl (by simpa using congrArg Prod.fst (List.mem_singleton.mp hx))
  | cons hd tl ih =>
    unfold cacheSet at hx
    by_cases hk : hd.1 = k
    · rw [if_pos hk] at hx
      rcases List.mem_cons.mp hx with h1 | h2
      · exact Or.inl (by rw [h1])
      · exact Or.inr (List.mem_cons_of_mem hd h2)
    · rw [if_neg hk] at hx
      rcases List.mem_cons.mp hx with h1 | h2
      · exact Or.inr (h1 ▸ List.mem_cons_self hd tl)
      · rcases ih h2 with h3 | h4
        · exact Or.inl h3
        · exact Or.inr (List.mem_cons_of_mem hd h4)

theorem cacheGet_eq_none {κ ν : Type} [DecidableEq κ]
    (c : List (κ × ν)) (k : κ) (h : ∀ x ∈ c, x.1 ≠ k) : cacheGet c k = none := by
  unfold cacheGet
  rw [List.find?_eq_none.mpr]
  · rfl
  · intro a ha
    simpa using h a ha

theorem render_page_state (raw : Int → ℚ → String) (e : CachedEngine)
    (p : Int) (z : ℚ) :
    (render_page raw e p z).2.pageCount = e.pageCount
    ∧ ((render_page raw e p z).2.cache = e.cache
       ∨ ((render_page raw e p z).2.cache
            = cacheSet e.cache (p, round2 z) (raw p z)
          ∧ 1 ≤ p ∧ p ≤ (e.pageCount : Int))) := by
  unfold render_page
  split
  · exact ⟨rfl, Or.inl rfl⟩
  · split
    · exact ⟨rfl, Or.inl rfl⟩
    · next hp =>
      push_neg at hp
      exact ⟨rfl, Or.inr ⟨rfl, hp.1, hp.2⟩⟩

theorem engineReach_cache_keys_in_range (raw : Int → ℚ → String)
    (e : CachedEngine) (h : EngineReach raw e) :
    ∀ x ∈ e.cache, 1 ≤ x.1.1 ∧ x.1.1 ≤ (e.pageCount : Int) := by
  induction h with
  | init n => intro x hx; exact absurd hx (List.not_mem_nil x)
  | step e p z _ ih =>
    intro x hx
    rcases render_page_state raw e p z with ⟨hcount, hcache | ⟨hcache, hp1, hp2⟩⟩
    · rw [hcache] at hx
      rw [hcount]
      exact ih x hx
    · rw [hcache] at hx
      rw [hcount]
      rcases mem_cacheSet _ _ _ _ hx with h1 | h2
      · exact ⟨by rw [h1]; exact hp1, by rw [h1]; exact hp2⟩
      · exact ih x h2

/-! ## Claim C4 -/

/-- C4: the normalize stage maps each pixel-space vertex `(x, y)` to
`(x * 72 / dpi, page_height - y * 72 / dpi)` where the page height is the
rendered image pixel height times `72 / dpi`; in particular with DPI 150 and
image pixel height 600 the pixel vertex `(100, 100)` maps to `(48, 240)`. -/
theorem ocr_normalize_maps_each_vertex_and_fixture (dpi heightPx : ℚ)
    (pageLines : List OcrLine) :
    pipelineNormalizePage dpi heightPx pageLines
      = pageLines.map (fun line =>
          { text := line.text
            confidence := line.confidence
            bbox := line.bbox.map fun v =>
              (v.1 * 72 / dpi, heightPx * 72 / dpi - v.2 * 72 / dpi) })
    ∧ pipelineNormalizePage 150 600
        [{ text := "t", confidence := 1, bbox := [(100, 100)] }]
      = [{ text := "t", confidence := 1, bbox := [(48, 240)] }] := by
  constructor
  · unfold pipelineNormalizePage normalize_to_pdf_coords pipelinePageHeight
    refine List.map_congr_left fun line _ => ?_
    refine congrArg (fun b => OcrLine.mk line.text line.confidence b) ?_
    refine List.map_congr_left fun v _ => ?_
    rw [Prod.ext_iff]
    exact ⟨by ring, by ring⟩
  · unfold pipelineNormalizePage normalize_to_pdf_coords pipelinePageHeight
    norm_num

/-! ## Claim C7 -/

/-- C7: for every document engine (the shared cache-then-bounds-check shape of
`PDFEngine.render_page`, `TextEngine.render_page` and `DocxEngine.render_page`),
every zoom factor, and every page number outside `[1, page_count]`,
`render_page` fails with the out-of-range `ValueError` — in any reachable
engine state, so an invalid page can never be served from the render cache
either (the cache only ever holds in-range keys). -/
theorem render_page_out_of_range_fails (raw : Int → ℚ → String)
    (e : CachedEngine) (h : EngineReach raw e) (p : Int) (z : ℚ)
    (hp : p < 1 ∨ p > (e.pageCount : Int)) :
    (render_page raw e p z).1 = .error "Invalid page number" := by
  have hmiss : cacheGet e.cache (p, round2 z) = none := by
    apply cacheGet_eq_none
    intro x hx hkey
    rcases engineReach_cache_keys_in_range raw e h x hx with ⟨h1, h2⟩
    rw [hkey] at h1 h2
    rcases hp with hlt | hgt
    · exact absurd h1 (not_le.mpr hlt)
    · exact absurd h2 (not_le.mpr hgt)
  unfold render_page
  rw [hmiss]
  simp only [if_pos hp]

/-- Witness for C7 at a concrete freshly constructed 3-page engine and the
invalid page number 0. -/
theorem render_page_out_of_range_fails_witness :
    (render_page (fun _ _ => "img") { pageCount := 3, cache := [] } 0 1).1
      = .error "Invalid page number" :=
  render_page_out_of_range_fails (fun _ _ => "img") _ (EngineReach.init 3) 0 1
    (Or.inl (by decide))

/-! ## Claim C10 -/

/-- C10: for the synthetic-pagination engines' `search_text`, passing
`page_num = 0` behaves exactly like omitting `page_num`: the falsy value `0`
selects the all-pages branch, so every page `1, ..., page_count` is searched in
ascending order rather than failing or searching a single page. -/
theorem search_text_page_zero_searches_all_pages {α : Type}
    (perPage : Int → List α) (pageCount : Nat) :
    search_text perPage pageCount (some 0) = search_text perPage pageCount none
    ∧ pagesToSearch (some 0) pageCount
        = (List.range pageCount).map (fun i => (i : Int) + 1) := by
  constructor
  · rfl
  · rfl

/-! ## Claim C2 -/

/-- C2 counterexample: pagination of a zero-paragraph document does NOT yield
a page with zero lines.  For both synthetic-pagination engines the single
produced page holds exactly one (empty) line: `DocxEngine._load_paragraphs`
inserts a synthetic empty paragraph which wraps to one empty line, and
`TextEngine._paginate_text` turns the empty content into the single wrapped
line `""`. -/
theorem empty_document_counterexample :
    ((docxPages (fun _ _ _ => (6 : ℚ)) []).map fun pg => pg.lines.length) ≠ [0]
    ∧ ((docxPages (fun _ _ _ => (6 : ℚ)) []).map fun pg => pg.lines.length) = [1]
    ∧ ((txtPaginateText "").map List.length) ≠ [0]
    ∧ ((txtPaginateText "").map List.length) = [1] := by
  have h : docxPages (fun _ _ _ => (6 : ℚ)) []
      = [{ lines := [{ text := "", yOffset := 0, fontSize := 12, bold := false }],
           paraStart := 0, paraEnd := 1 }] := by
    simp [docxPages, docxPaginate, docxEnsureParagraphs, addPara, addLine, wrap_text]
  refine ⟨?_, ?_, ?_, ?_⟩
  · rw [h]; decide
  · rw [h]; rfl
  · decide
  · decide

/-- C2 amended: for a document with zero paragraphs, synthetic pagination
yields exactly one page containing a single empty line (one line whose text is
empty, not zero lines), and extract_text on that page returns the empty
string — for the DOCX engine (any font-measure oracle `fw`) and for the text
engine alike. -/
theorem empty_document_single_empty_line (fw : Nat → Bool → Char → ℚ) :
    docxPages fw []
      = [{ lines := [{ text := "", yOffset := 0, fontSize := 12, bold := false }],
           paraStart := 0, paraEnd := 1 }]
    ∧ docxExtractText (docxEnsureParagraphs []) (docxPages fw []) 1 = .ok ""
    ∧ txtPaginateText "" = [[""]]
    ∧ txtExtractText (txtPaginateText "") 1 = .ok "" := by
  have h : docxPages fw []
      = [{ lines := [{ text := "", yOffset := 0, fontSize := 12, bold := false }],
           paraStart := 0, paraEnd := 1 }] := by
    simp [docxPages, docxPaginate, docxEnsureParagraphs, addPara, addLine, wrap_text]
  refine ⟨h, ?_, rfl, rfl⟩
  rw [h]
  rfl

/-- C3 counterexample: `TextEngine.extract_text` returns the wrapped line
texts, not the original paragraph texts.  A text document whose content is a
single 100-character paragraph paginates to one page, yet extracting that page
yields the two wrap chunks joined by a newline — which differs from the
original paragraph, so extraction reproduces wrap points, contradicting the
claim for this synthetic-pagination engine. -/
theorem txt_extract_returns_wrapped_lines_counterexample :
    (txtPaginateText (aStr 100)).length = 1
    ∧ txtExtractText (txtPaginateText (aStr 100)) 1
        = .ok (aStr 80 ++ "\n" ++ aStr 20)
    ∧ aStr 80 ++ "\n" ++ aStr 20 ≠ aStr 100 := by
  refine ⟨by decide, by rfl, by decide⟩

/-! ## Claim C9 -/

theorem wrap_text_ne_nil (cw : Char → ℚ) (text : String) (maxWidth : ℚ) :
    wrap_text cw text maxWidth ≠ [] := by
  unfold wrap_text
  by_cases h : text = ""
  · simp [h]
  · rw [if_neg h]
    dsimp only
    split <;> split <;> simp_all

theorem addLine_cur_ne_nil (lineH : ℚ) (paraIdx fontSize : Nat) (bold : Bool)
    (st : PagState) (txt : String) :
    (addLine lineH paraIdx fontSize bold st txt).cur.lines ≠ [] := by
  unfold addLine
  split <;> simp

theorem addLine_records_nonempty (lineH : ℚ) (paraIdx fontSize : Nat)
    (bold : Bool) (st : PagState) (txt : String)
    (h : ∀ r ∈ st.records, r.lines ≠ []) :
    ∀ r ∈ (addLine lineH paraIdx fontSize bold st txt).records, r.lines ≠ [] := by
  unfold addLine
  split
  · next hc =>
    intro r hr
    rcases List.mem_append.mp hr with h1 | h2
    · exact h r h1
    · rw [List.mem_singleton.mp h2]
      exact hc.2
  · exact h

theorem foldl_addLine_props (lineH : ℚ) (paraIdx fontSize : Nat) (bold : Bool)
    (ws : List String) (st : PagState)
    (h : ∀ r ∈ st.records, r.lines ≠ []) :
    (∀ r ∈ (ws.foldl (addLine lineH paraIdx fontSize bold) st).records,
        r.lines ≠ [])
    ∧ (ws ≠ [] ∨ st.cur.lines ≠ [] →
        (ws.foldl (addLine lineH paraIdx fontSize bold) st).cur.lines ≠ []) := by
  induction ws generalizing st with
  | nil =>
    refine ⟨h, ?_⟩
    intro hor
    rcases hor with h1 | h2
    · exact absurd rfl h1
    · exact h2
  | cons w ws ih =>
    simp only [List.foldl_cons]
    refine ⟨(ih _ (addLine_records_nonempty _ _ _ _ _ _ h)).1, fun _ => ?_⟩
    exact (ih _ (addLine_records_nonempty _ _ _ _ _ _ h)).2
      (Or.inr (addLine_cur_ne_nil _ _ _ _ _ _))

theorem addPara_props (fw : Nat → Bool → Char → ℚ) (st : PagState)
    (ip : Nat × ParagraphInfo) (h : ∀ r ∈ st.records, r.lines ≠ []) :
    (∀ r ∈ (addPara fw st ip).records, r.lines ≠ [])
    ∧ (addPara fw st ip).cur.lines ≠ [] := by
  unfold addPara
  dsimp only
  constructor
  · exact (foldl_addLine_props _ _ _ _ _ _ h).1
  · exact (foldl_addLine_props _ _ _ _ _ _ h).2
      (Or.inl (wrap_text_ne_nil _ _ _))

theorem foldl_addPara_props (fw : Nat → Bool → Char → ℚ)
    (l : List (Nat × ParagraphInfo)) (st : PagState)
    (h : ∀ r ∈ st.records, r.lines ≠ []) :
    (∀ r ∈ (l.foldl (addPara fw) st).records, r.lines ≠ [])
    ∧ (l ≠ [] ∨ st.cur.lines ≠ [] →
        (l.foldl (addPara fw) st).cur.lines ≠ []) := by
  induction l generalizing st with
  | nil =>
    refine ⟨h, ?_⟩
    intro hor
    rcases hor with h1 | h2
    · exact absurd rfl h1
    · exact h2
  | cons ip l ih =>
    simp only [List.foldl_cons]
    refine ⟨(ih _ (addPara_props fw st ip h).1).1, fun _ => ?_⟩
    exact (ih _ (addPara_props fw st ip h).1).2 (Or.inr (addPara_props fw st ip h).2)

theorem docxEnsureParagraphs_ne_nil (paras : List ParagraphInfo) :
    docxEnsureParagraphs paras ≠ [] := by
  unfold docxEnsureParagraphs
  split
  · simp
  · next h => simpa using h

/-- C9: every page record produced by DOCX pagination contains at least one
line: `_wrap_text` always returns at least one (possibly empty) line, a page
is only closed while it holds at least one line, and `_load_paragraphs`
guarantees at least one paragraph — so `page_count ≥ 1` and no produced page
has an empty line list, for every font-measure oracle and every input
paragraph list. -/
theorem docx_pagination_no_empty_pages :
    (∀ (cw : Char → ℚ) (t : String) (w : ℚ), wrap_text cw t w ≠ [])
    ∧ ∀ (fw : Nat → Bool → Char → ℚ) (paras : List ParagraphInfo),
        1 ≤ (docxPages fw paras).length
        ∧ ∀ pg ∈ docxPages fw paras, pg.lines ≠ [] := by
  refine ⟨wrap_text_ne_nil, fun fw paras => ?_⟩
  unfold docxPages docxPaginate
  dsimp only
  rw [if_neg (by simp)]
  have hinit : ∀ r ∈ ({} : PagState).records, r.lines ≠ [] := by
    intro r hr
    exact absurd hr (List.not_mem_nil r)
  have henum : (docxEnsureParagraphs paras).enum ≠ [] := by
    intro hc
    have := congrArg List.length hc
    simp only [List.enum_length, List.length_nil] at this
    exact docxEnsureParagraphs_ne_nil paras (List.length_eq_zero.mp this)
  have hprops := foldl_addPara_props fw (docxEnsureParagraphs paras).enum {} hinit
  constructor
  · simp
  · intro pg hpg
    rcases List.mem_append.mp hpg with h1 | h2
    · exact hprops.1 pg h1
    · rw [List.mem_singleton.mp h2]
      exact hprops.2 (Or.inl henum)

/-- Witness for C9 at the concrete empty paragraph list and a constant
font-measure oracle. -/
theorem docx_pagination_no_empty_pages_witness :
    wrap_text (fun _ => (6 : ℚ)) "x" 512 ≠ []
    ∧ 1 ≤ (docxPages (fun _ _ _ => (6 : ℚ)) []).length
    ∧ ({ lines := [{ text := "", yOffset := 0, fontSize := 12, bold := false }],
         paraStart := 0, paraEnd := 1 } : PageRecord).lines ≠ [] := by
  have h := docx_pagination_no_empty_pages
  refine ⟨h.1 _ _ _, (h.2 (fun _ _ _ => 6) []).1, ?_⟩
  refine (h.2 (fun _ _ _ => 6) []).2 _ ?_
  have hpages : docxPages (fun _ _ _ => (6 : ℚ)) []
      = [{ lines := [{ text := "", yOffset := 0, fontSize := 12, bold := false }],
           paraStart := 0, paraEnd := 1 }] := by
    simp [docxPages, docxPaginate, docxEnsureParagraphs, addPara, addLine, wrap_text]
  rw [hpages]
  exact List.mem_singleton_self _

theorem Chained.le {a b : Nat} {rs : List PageRecord} (h : Chained a rs b) :
    a ≤ b := by
  induction h with
  | nil a => exact Nat.le_refl a
  | cons r rs hs hle htail ih => exact Nat.le_trans hle ih

theorem Chained.append_singleton {a b : Nat} {rs : List PageRecord}
    (h : Chained a rs b) :
    ∀ {c : Nat} (pg : PageRecord), pg.paraStart = b → pg.paraEnd = c → b ≤ c →
    Chained a (rs ++ [pg]) c := by
  induction h with
  | nil a =>
    intro c pg hs he hbc
    exact Chained.cons pg [] hs (by rw [he]; exact hbc)
      (by rw [he]; exact Chained.nil c)
  | cons r rs hrs hle htail ih =>
    intro c pg hs he hbc
    exact Chained.cons r _ hrs hle (ih pg hs he hbc)

theorem pySlice_append {α : Type} (l : List α) (a e b : Nat)
    (h1 : a ≤ e) (h2 : e ≤ b) :
    pySlice l a e ++ pySlice l e b = pySlice l a b := by
  unfold pySlice
  have hd : l.drop e = (l.drop a).drop (e - a) := by
    rw [List.drop_drop]
    congr 1
    omega
  rw [hd, ← List.take_add]
  congr 1
  omega

theorem chained_flatten {α : Type}
    (l : List α) (rs : List PageRecord) (a b : Nat) (h : Chained a rs b) :
    ((rs.map fun r => pySlice l r.paraStart r.paraEnd).flatten) = pySlice l a b := by
  induction h with
  | nil a =>
    simp [pySlice]
  | cons r rs hs hle htail ih =>
    simp only [List.map_cons, List.flatten_cons, ih]
    rw [← hs]
    exact pySlice_append l r.paraStart r.paraEnd _ (hs.symm ▸ hle) htail.le

theorem addLine_pagInv (lineH : ℚ) (paraIdx fontSize : Nat) (bold : Bool)
    (st : PagState) (txt : String) (h : PagInv paraIdx st) :
    PagInv paraIdx (addLine lineH paraIdx fontSize bold st txt) := by
  unfold addLine
  split
  · refine ⟨?_, Nat.le_refl paraIdx⟩
    exact h.1.append_singleton _ rfl rfl h.2
  · exact h

theorem foldl_addLine_pagInv (lineH : ℚ) (paraIdx fontSize : Nat) (bold : Bool)
    (ws : List String) (st : PagState) (h : PagInv paraIdx st) :
    PagInv paraIdx (ws.foldl (addLine lineH paraIdx fontSize bold) st) := by
  induction ws generalizing st with
  | nil => exact h
  | cons w ws ih =>
    simp only [List.foldl_cons]
    exact ih _ (addLine_pagInv _ _ _ _ _ _ h)

theorem addPara_pagInv (fw : Nat → Bool → Char → ℚ) (st : PagState)
    (ip : Nat × ParagraphInfo) (h : PagInv ip.1 st) :
    PagInv (ip.1 + 1) (addPara fw st ip) := by
  unfold addPara
  dsimp only
  have h' := foldl_addLine_pagInv ((ip.2.fontSize : ℚ) * (7 / 5)) ip.1
    ip.2.fontSize ip.2.bold
    (wrap_text (fw ip.2.fontSize ip.2.bold) ip.2.text usableWidthDocx) st h
  exact ⟨h'.1, Nat.le_succ_of_le h'.2⟩

theorem foldl_addPara_pagInv (fw : Nat → Bool → Char → ℚ)
    (ps : List ParagraphInfo) (i : Nat) (st : PagState) (h : PagInv i st) :
    PagInv (i + ps.length) ((List.enumFrom i ps).foldl (addPara fw) st) := by
  induction ps generalizing i st with
  | nil => simpa using h
  | cons p ps ih =>
    simp only [List.enumFrom, List.foldl_cons, List.length_cons]
    have h1 : PagInv (i + 1) (addPara fw st (i, p)) := addPara_pagInv fw st (i, p) h
    have h2 := ih (i + 1) _ h1
    have : i + 1 + ps.length = i + (ps.length + 1) := by omega
    rw [this] at h2
    exact h2

theorem docxPaginate_chained (fw : Nat → Bool → Char → ℚ)
    (paras : List ParagraphInfo) :
    Chained 0 (docxPaginate fw paras) paras.length := by
  unfold docxPaginate
  dsimp only
  rw [if_neg (by simp)]
  have hinit : PagInv 0 ({} : PagState) := ⟨Chained.nil 0, Nat.le_refl 0⟩
  have hfin := foldl_addPara_pagInv fw paras 0 {} hinit
  rw [Nat.zero_add] at hfin
  have henum : paras.enum = List.enumFrom 0 paras := rfl
  rw [henum]
  exact hfin.1.append_singleton _ rfl rfl hfin.2

/-- C3 amended: for the DOCX engine, `extract_text` returns the
newline-joined ORIGINAL paragraph texts whose indices fall in the page's
recorded `[para_start, para_end)` range (not the wrapped line texts), and the
recorded ranges of the produced pages tile the whole paragraph list — so the
per-page paragraph slices concatenate back to exactly the original paragraph
sequence.  The text engine, by contrast, joins the page's wrapped line texts
(its extraction reflects wrap points; see the counterexample). -/
theorem extract_text_original_paragraphs :
    (∀ (fw : Nat → Bool → Char → ℚ) (paras : List ParagraphInfo),
        ((docxPages fw paras).map fun r =>
            pySlice (docxEnsureParagraphs paras) r.paraStart r.paraEnd).flatten
          = docxEnsureParagraphs paras)
    ∧ (∀ (paras : List ParagraphInfo) (recs : List PageRecord)
        (pageNum : Int) (pg : PageRecord),
        recs.get? (pageNum - 1).toNat = some pg →
        1 ≤ pageNum → pageNum ≤ (recs.length : Int) →
        docxExtractText paras recs pageNum
          = .ok (String.intercalate "\n"
              ((pySlice paras pg.paraStart pg.paraEnd).map fun p => p.text)))
    ∧ (∀ (pages : List (List String)) (pageNum : Int) (pl : List String),
        pages.get? (pageNum - 1).toNat = some pl →
        1 ≤ pageNum → pageNum ≤ (pages.length : Int) →
        txtExtractText pages pageNum = .ok (String.intercalate "\n" pl)) := by
  refine ⟨fun fw paras => ?_, fun paras recs pageNum pg hget h1 h2 => ?_,
    fun pages pageNum pl hget h1 h2 => ?_⟩
  · have hch : Chained 0 (docxPages fw paras) (docxEnsureParagraphs paras).length :=
      docxPaginate_chained fw (docxEnsureParagraphs paras)
    rw [chained_flatten (docxEnsureParagraphs paras) _ _ _ hch]
    unfold pySlice
    simp
  · unfold docxExtractText
    rw [if_neg (by omega), hget]
  · unfold txtExtractText
    rw [if_neg (by omega), hget]

/-- Witness for C3 amended at concrete pages and page number 1. -/
theorem extract_text_original_paragraphs_witness :
    ((docxPages (fun _ _ _ => (6 : ℚ)) []).map fun r =>
        pySlice (docxEnsureParagraphs []) r.paraStart r.paraEnd).flatten
      = docxEnsureParagraphs []
    ∧ docxExtractText []
        [{ lines := [{ text := "", yOffset := 0, fontSize := 12, bold := false }],
           paraStart := 0, paraEnd := 1 }] 1 = .ok ""
    ∧ txtExtractText [[""]] 1 = .ok "" := by
  have h := extract_text_original_paragraphs
  refine ⟨h.1 _ [], ?_, ?_⟩
  · exact (h.2.1 []
      [{ lines := [{ text := "", yOffset := 0, fontSize := 12, bold := false }],
         paraStart := 0, paraEnd := 1 }] 1 _ rfl (by decide) (by decide)).trans rfl
  · exact (h.2.2 [[""]] 1 [""] rfl (by decide) (by decide)).trans rfl

/-- C5: whenever the OCR job status is `running` (with a non-empty document
open — the only situation in which a job can be running), a call to
`start_ocr_document` returns immediately reporting already-running, leaves the
orchestrator state untouched, and spawns no background worker — single-flight:
at most one worker per document. -/
theorem start_ocr_document_single_flight (s : OrchState)
    (hopen : s.pdfOpen = true) (hcount : 0 < s.pdfPageCount)
    (hrun : s.progress.status = .running) :
    start_ocr_document s = (.alreadyRunning s.progress.totalPages, s, none) := by
  unfold start_ocr_document get_ocr_progress
  rw [hopen]
  rw [if_neg (by simp), if_neg (by omega), if_pos hrun]

/-- Witness for C5 at a concrete running state over a 3-page document. -/
theorem start_ocr_document_single_flight_witness :
    start_ocr_document runningState3 = (.alreadyRunning 3, runningState3, none) :=
  start_ocr_document_single_flight runningState3 rfl (by decide) rfl

/-! ## Claim C6 -/

/-- C6: if `ocr_page(p)` succeeds, an immediately following `ocr_page(p)` with
no intervening document change hits the cache: it returns the identical result,
leaves the state unchanged, and does not invoke the recognition backend again
(the third component, which records whether `self._ocr_pipeline.run` ran) —
so the backend runs at most once for that page. -/
theorem ocr_page_cache_idempotent (w : OcrWorld) (s : OrchState) (p : Nat)
    (lines : List SimpleLine) (s' : OrchState) (b : Bool)
    (h : ocr_page w s p = (.ok lines, s', b)) :
    ocr_page w s' p = (.ok lines, s', false) := by
  unfold ocr_page at h
  split at h
  · simp at h
  · next hopen =>
    split at h
    · next l heql =>
      simp only [Prod.mk.injEq, Except.ok.injEq] at h
      obtain ⟨h1, h2, h3⟩ := h
      unfold ocr_page
      rw [← h2, if_neg hopen, heql, h1]
    · next heqnone =>
      split at h
      · simp at h
      · split at h
        · simp at h
        · split at h
          · simp at h
          · next results simplified heqs =>
            simp only [Prod.mk.injEq, Except.ok.injEq] at h
            obtain ⟨h1, h2, h3⟩ := h
            unfold ocr_page
            rw [← h2, if_neg (by simpa using hopen),
              cacheGet_cacheSet_self s.cache p simplified, h1]

/-- Witness for C6: a first `ocr_page(1)` call on a cold cache succeeds with
no lines, then the second call returns the cached identical result without
invoking the backend. -/
theorem ocr_page_cache_idempotent_witness :
    ocr_page emptyPageWorld
      { coldState1 with pipelineInited := true, cache := [(1, [])] } 1
      = (.ok [],
         { coldState1 with pipelineInited := true, cache := [(1, [])] },
         false) :=
  ocr_page_cache_idempotent emptyPageWorld coldState1 1 [] _ true rfl

/-! ## Claim C8 -/

/-- C8 counterexample: the handler's generation comparison (api.py line 420)
and its error write (lines 421-426) are separate unlocked statements, so a
stale job's failure CAN overwrite a newer job's state.  Schedule: the
generation-0 worker's pipeline raises at page 1; the handler's guard passes
(generation still 0); a cleanup fires (generation becomes 1, progress reset to
idle); then the handler's write stamps status `error`, the stale job id 0 and
the message over the generation-1 progress.  This refutes the claim's "this
error write happens only if the job's generation id is still current (a stale
job's failure never overwrites a newer job's state)". -/
theorem stale_error_overwrites_new_generation_counterexample :
    workCfg.jobId = 0
    ∧ (runSched boomWorld [true, true, false, true] workCfg).st.jobId = 1
    ∧ (runSched boomWorld [true, true, false, true] workCfg).st.progress.status
        = .error
    ∧ (runSched boomWorld [true, true, false, true] workCfg).st.progress.error
        = "boom"
    ∧ (runSched boomWorld [true, true, false, true] workCfg).st.progress.jobId
        = 0 :=
  ⟨rfl, rfl, rfl, rfl, rfl⟩

/-- C8 amended: exceptions inside the background worker never propagate — a
pipeline failure at a page transfers control to the `except` handler without
touching shared state, and the worker always terminates normally, the failure
being observable only through `get_ocr_progress`.  The handler's generation
comparison itself touches no shared state: on a mismatch the worker halts with
everything unchanged (a stale failure observed as stale is discarded), and
only on a match does it proceed to the error write, which records status
`error` with the message and the job's id and never touches the cache.
Because the comparison and the write are separate unlocked statements, a
generation increment between them can still let a stale job's failure be
written over the newer job's progress state — see the counterexample. -/
theorem worker_exceptions_never_propagate (w : OcrWorld) :
    (∀ (c : WConfig) (p processed tl : Nat) (e : String),
        c.ph = .work p processed tl → w.backend p = .error e →
        wstep w c = { c with ph := .exc e })
    ∧ (∀ (c : WConfig) (e : String), c.ph = .exc e →
        (wstep w c).st = c.st
        ∧ (c.jobId ≠ c.st.jobId → wstep w c = { c with ph := .halted })
        ∧ (c.jobId = c.st.jobId → wstep w c = { c with ph := .excWrite e }))
    ∧ (∀ (c : WConfig) (e : String), c.ph = .excWrite e →
        (wstep w c).ph = .halted
        ∧ (wstep w c).st.cache = c.st.cache
        ∧ (get_ocr_progress (wstep w c).st).progress.status = .error
        ∧ (get_ocr_progress (wstep w c).st).progress.error = e
        ∧ (get_ocr_progress (wstep w c).st).progress.jobId = c.jobId) := by
  refine ⟨?_, ?_, ?_⟩
  · rintro ⟨j, t, ph, st⟩ p processed tl e hph hb
    dsimp only at hph
    subst hph
    unfold wstep
    dsimp only
    rw [hb]
  · rintro ⟨j, t, ph, st⟩ e hph
    dsimp only at hph
    subst hph
    unfold wstep
    dsimp only
    by_cases hj : j = st.jobId
    · rw [if_pos hj]
      exact ⟨rfl, fun hne => absurd hj hne, fun _ => rfl⟩
    · rw [if_neg hj]
      exact ⟨rfl, fun _ => rfl, fun hjj => absurd hjj hj⟩
  · rintro ⟨j, t, ph, st⟩ e hph
    dsimp only at hph
    subst hph
    unfold wstep
    dsimp only
    exact ⟨rfl, rfl, rfl, rfl, rfl⟩

/-- Witness for C8 amended: the pipeline failure at page 1 reaches the handler
untouched; a stale-generation guard halts with the state unchanged; a
current-generation guard proceeds to the write step, which records the error
observably and leaves the cache alone. -/
theorem worker_exceptions_never_propagate_witness :
    wstep boomWorld workCfg = { workCfg with ph := .exc "boom" }
    ∧ wstep boomWorld
        { workCfg with ph := .exc "boom", st := { workerSt0 with jobId := 1 } }
        = { workCfg with ph := .halted, st := { workerSt0 with jobId := 1 } }
    ∧ wstep boomWorld { workCfg with ph := .exc "boom" }
        = { workCfg with ph := .excWrite "boom" }
    ∧ (wstep boomWorld { workCfg with ph := .excWrite "boom" }).ph = .halted
    ∧ (get_ocr_progress
        (wstep boomWorld { workCfg with ph := .excWrite "boom" }).st).progress.status
        = .error
    ∧ (get_ocr_progress
        (wstep boomWorld { workCfg with ph := .excWrite "boom" }).st).progress.error
        = "boom" := by
  have h := worker_exceptions_never_propagate boomWorld
  refine ⟨h.1 workCfg 1 0 0 "boom" rfl rfl,
    (h.2.1 _ "boom" rfl).2.1 (by decide),
    (h.2.1 _ "boom" rfl).2.2 rfl,
    (h.2.2 _ "boom" rfl).1,
    (h.2.2 _ "boom" rfl).2.2.1,
    (h.2.2 _ "boom" rfl).2.2.2.1⟩

/-! ## Claim C1 -/

theorem wstep_halted (w : OcrWorld) (c : WConfig) (h : c.ph = .halted) :
    wstep w c = c := by
  obtain ⟨j, t, ph, st⟩ := c
  dsimp only at h
  subst h
  rfl

theorem cleanupStep_ph (c : WConfig) : (cleanupStep c).ph = c.ph := rfl

/-- C1 amended: when the worker's page-boundary generation check observes
that its captured generation id no longer matches the live one, it returns
immediately without touching shared state, and from then on the worker never
writes anything: every cache entry present after any further interleaving of
worker steps and cleanups was already present when the worker halted.  (Only
this much follows from the code: a page whose generation check passed before
the increment can still be written afterwards — see the counterexample.) -/
theorem stale_worker_check_halts (w : OcrWorld) :
    (∀ (c : WConfig) (p processed tl : Nat),
        c.ph = .check p processed tl → p ≤ c.total → c.jobId ≠ c.st.jobId →
        wstep w c = { c with ph := .halted })
    ∧ (∀ (c : WConfig), c.ph = .halted →
        ∀ (sched : List Bool) (k : Nat) (v : List SimpleLine),
        cacheGet (runSched w sched c).st.cache k = some v →
        cacheGet c.st.cache k = some v) := by
  constructor
  · rintro ⟨j, t, ph, st⟩ p processed tl hph hp hne
    dsimp only at hph hp hne
    subst hph
    unfold wstep
    dsimp only
    rw [if_neg (by omega), if_pos hne]
  · intro c hph sched
    induction sched generalizing c with
    | nil =>
      intro k v hk
      simpa [runSched] using hk
    | cons bb rest ih =>
      intro k v hk
      simp only [runSched] at hk
      by_cases hb : bb = true
      · rw [hb] at hk
        simp only [if_pos] at hk
        rw [wstep_halted w c hph] at hk
        exact ih c hph k v hk
      · rw [Bool.eq_false_iff.mpr hb] at hk
        simp only [Bool.false_eq_true, if_neg, not_false_iff] at hk
        have hcl : (cleanupStep c).ph = .halted := by rw [cleanupStep_ph, hph]
        have := ih (cleanupStep c) hcl k v hk
        simp [cleanupStep, cacheGet] at this

/-- Witness for C1 amended: the stale check halts the worker with the state
untouched, and an already-present cache entry is all a later lookup can see. -/
theorem stale_worker_check_halts_witness :
    wstep oneLineWorld staleCheckCfg = { staleCheckCfg with ph := .halted }
    ∧ cacheGet ({ staleCheckCfg with ph := .halted } : WConfig).st.cache 5
        = some [] := by
  have h := stale_worker_check_halts oneLineWorld
  refine ⟨h.1 staleCheckCfg 1 0 0 rfl (by decide) (by decide), ?_⟩
  exact h.2 { staleCheckCfg with ph := .halted } rfl [true] 5 [] rfl

/-- C1 counterexample: the generation check and the cache write are separate
steps, so a cleanup (new document opened) that fires after the worker's check
of page 1 but before its write leaves the NEW document's cache containing the
page entry written by the stale generation-0 worker.  Schedule: baseline,
check (passes, generation still 0), cleanup (generation becomes 1, cache
cleared), work (stale worker writes page 1).  The claim's "the new document's
OCR cache never contains any page entry written by the stale worker" is
therefore false on the code. -/
theorem stale_worker_cache_poisoning_counterexample :
    staleJobCfg.jobId = 0
    ∧ (runSched oneLineWorld [true, true, false] staleJobCfg).st.jobId = 1
    ∧ (runSched oneLineWorld [true, true, false] staleJobCfg).st.cache = []
    ∧ (runSched oneLineWorld [true, true, false, true] staleJobCfg).st.jobId = 1
    ∧ cacheGet
        (runSched oneLineWorld [true, true, false, true] staleJobCfg).st.cache 1
        = some [{ text := "hello", confidence := 1, x := 2, y := 3,
                  width := 0, height := 0 }] := by
  refine ⟨rfl, ?_, ?_, ?_, ?_⟩ <;>
    norm_num [runSched, wstep, cleanupStep, cachedBaseline, cacheGet, cacheSet,
      simplifyOcrLines, simplifyLine, pyMin, pyMax, runningProgress,
      idleProgress, oneLineWorld, staleJobCfg, List.find?]

end BetterPDF
